import Mathlib

/-
Verification of the LLMExtractor resume-ranking service.

The Python sources (src/app/main.py, src/app/utils.py) are shallowly embedded
below.  External collaborators (the OpenAI chat client, PIL JPEG encoding,
pdf2image page rasterization, the LibreOffice DOCX-to-PDF converter and the
json.loads parser of the standard library) are taken as explicit function
parameters; everything the repository itself computes is translated into
executable Lean definitions.  Python dicts are modelled as insertion-ordered
association lists, matching CPython dict semantics, and the pandas DataFrame
construction from a list of dicts is modelled by its documented first-seen
column ordering.  Side effects that matter to the specification (temp-file
writes, document conversion, LLM network calls) are recorded in an explicit
event trace.
-/

namespace LLMExtractor

/-- Position of the last occurrence of a character in a character list,
mirroring Python's str.rfind. -/
def lastIndexOf (xs : List Char) (c : Char) : Option Nat :=
  xs.enum.foldl (fun acc p => if p.2 = c then some p.1 else acc) none

/-- Interpret Python's rfind result: -1 when the character is absent. -/
def rfind (xs : List Char) (c : Char) : Int :=
  match lastIndexOf xs c with
  | some i => (i : Int)
  | none => -1

/-- Model of os.path.splitext (posixpath): split at the last dot, unless every
character between the last path separator and that dot is itself a dot. -/
def splitextList (p : List Char) : List Char × List Char :=
  let sepIndex := rfind p '/'
  let dotIndex := rfind p '.'
  if sepIndex < dotIndex then
    let filenamePart := (p.take dotIndex.toNat).drop (sepIndex + 1).toNat
    if filenamePart.any (fun ch => ch ≠ '.') then
      (p.take dotIndex.toNat, p.drop dotIndex.toNat)
    else (p, [])
  else (p, [])

/-- os.path.splitext on strings: returns (root, extension). -/
def splitext (p : String) : String × String :=
  let r := splitextList p.data
  (String.mk r.1, String.mk r.2)

/-- ASCII lowercasing of one character, as Python's str.lower does on ASCII. -/
def lowerChar (c : Char) : Char :=
  if 65 ≤ c.toNat ∧ c.toNat ≤ 90 then Char.ofNat (c.toNat + 32) else c

/-- Model of Python's str.lower (restricted to its ASCII action, which is all
the extension check relies on). -/
def pyLower (s : String) : String := String.mk (s.data.map lowerChar)

/-- The two extractor classes of src/app/utils.py. -/
inductive Extractor where
  | pdfReader
  | docxReader
deriving DecidableEq

/-- FILE_TYPE_TO_EXTRACTOR from src/app/main.py. -/
def FILE_TYPE_TO_EXTRACTOR : List (String × Extractor) :=
  [(".pdf", Extractor.pdfReader), (".docx", Extractor.docxReader)]

/-- Python dict lookup in FILE_TYPE_TO_EXTRACTOR. -/
def lookupExtractor (ext : String) : Option Extractor :=
  (FILE_TYPE_TO_EXTRACTOR.find? (fun p => p.1 == ext)).map Prod.snd

/-- get_extractor from src/app/main.py: lowercase the filename, split off the
extension, and either return the extractor class or raise ValueError. -/
def get_extractor (filename : String) : Except String Extractor :=
  let fn := pyLower filename
  let ext := (splitext fn).2
  match lookupExtractor ext with
  | none => Except.error ("Unsupported file type: " ++ ext)
  | some e => Except.ok e

/-- An uploaded multipart file: a filename plus opaque bytes. -/
structure UploadFile where
  filename : String
  content : List Nat
deriving DecidableEq

/-- A rasterized page image (opaque PIL image contents). -/
structure Image where
  bytes : List Nat
deriving DecidableEq

/-- A PDF document, identified with its rasterized page sequence as produced
by the external pdf2image convert_from_path. -/
structure PdfDocument where
  pages : List Image
deriving DecidableEq

/-- A DOCX document (opaque bytes; its page images only exist after the
external LibreOffice conversion). -/
structure DocxDocument where
  source : List Nat
deriving DecidableEq

/-- PdfReader.convert_to_images: pdf2image returns one image per page in page
order; the document is identified with that sequence. -/
def PdfReader.convert_to_images (d : PdfDocument) : List Image := d.pages

/-- PdfReader.convert_to_base64 from src/app/utils.py: for each page, save as
JPEG (external PIL, parameter save) and base64-encode (parameter b64encode). -/
def PdfReader.convert_to_base64 (save : Image → List Nat) (b64encode : List Nat → String)
    (d : PdfDocument) : List String :=
  (PdfReader.convert_to_images d).map (fun page => b64encode (save page))

/-- DocxReader.convert_to_images from src/app/utils.py: convert to a PDF via
the external LibreOffice tool (parameter libre, which fails on non-zero exit
or a missing output file), then take the PDF's page images. -/
def DocxReader.convert_to_images (libre : DocxDocument → Except String PdfDocument)
    (d : DocxDocument) : Except String (List Image) :=
  match libre d with
  | Except.error e => Except.error e
  | Except.ok pdf => Except.ok (PdfReader.convert_to_images pdf)

/-- DocxReader.convert_to_base64 from src/app/utils.py: same per-page encoding
loop as the PDF reader, over the converted images. -/
def DocxReader.convert_to_base64 (libre : DocxDocument → Except String PdfDocument)
    (save : Image → List Nat) (b64encode : List Nat → String)
    (d : DocxDocument) : Except String (List String) :=
  match DocxReader.convert_to_images libre d with
  | Except.error e => Except.error e
  | Except.ok images => Except.ok (images.map (fun page => b64encode (save page)))

/-- A JSON value, as produced by the standard library's json.loads. -/
inductive Json where
  | null
  | bool (b : Bool)
  | num (n : Int)
  | str (s : String)
  | arr (xs : List Json)
  | obj (fields : List (String × Json))

/-- The ScoreResponse pydantic model of src/app/utils.py.  The scores dict is
an insertion-ordered association list; pydantic constrains the value type to
int but imposes no range bound. -/
structure ScoreResponse where
  candidate_name : String
  scores : List (String × Int)
  total_score : Int
deriving DecidableEq

/-- A scalar cell of the result table: candidate names are strings, scores and
totals are integers. -/
inductive Cell where
  | str (s : String)
  | int (n : Int)
deriving DecidableEq

/-- A row of the result table: a Python dict from column name to cell,
modelled as an insertion-ordered association list. -/
abbrev Row := List (String × Cell)

/-- Python dict read d[k]: first (unique) binding of the key. -/
def dictLookup (k : String) : Row → Option Cell
  | [] => none
  | kv :: rest => if kv.1 = k then some kv.2 else dictLookup k rest

/-- Python dict write d[k] = v: replace in place when the key is present,
append otherwise. -/
def dictInsert (d : Row) (k : String) (v : Cell) : Row :=
  if d.any (fun kv => kv.1 == k) then
    d.map (fun kv => if kv.1 = k then (k, v) else kv)
  else d ++ [(k, v)]

/-- The merge loop of main.py lines 144-145: entry[crit] = score for each
scores item in order. -/
def insertScores (d : Row) (ps : List (String × Int)) : Row :=
  ps.foldl (fun acc p => dictInsert acc p.1 (Cell.int p.2)) d

/-- Python's `a or b` on strings: b exactly when a is empty. -/
def pyOr (a b : String) : String := if a = "" then b else a

/-- One iteration of the results loop of main.py lines 139-147: start the
entry dict with the candidate name (LLM-provided, else the filename fallback),
merge the individual scores, then set the total. -/
def buildRow (sr : ScoreResponse) (fallback : String) : Row :=
  dictInsert
    (insertScores [("Candidate Name", Cell.str (pyOr sr.candidate_name fallback))] sr.scores)
    "Total Score" (Cell.int sr.total_score)

/-- The results list of main.py line 138-147, pairing each ScoreResponse with
its fallback candidate name by index. -/
def buildResults (srs : List ScoreResponse) (names : List String) : List Row :=
  (srs.zip names).map (fun p => buildRow p.1 p.2)

/-- Column accumulation for one row dict: pandas collects keys in first-seen
order when building a DataFrame from a list of dicts. -/
def addCols (cols : List String) (row : Row) : List String :=
  row.foldl (fun cs p => if p.1 ∈ cs then cs else cs ++ [p.1]) cols

/-- The column index of pd.DataFrame(results): union of the row dict keys in
first-seen order. -/
def dfColumns (rows : List Row) : List String :=
  rows.foldl addCols []

/-- Render one cell as pandas to_csv renders it. -/
def renderCell : Cell → String
  | Cell.str s => s
  | Cell.int n => toString n

/-- One serialized CSV cell: empty for a missing value (pandas na_rep default),
the rendered scalar otherwise. -/
def csvCell (row : Row) (col : String) : String :=
  match dictLookup col row with
  | none => ""
  | some c => renderCell c

/-- One serialized CSV data line. -/
def csvLine (cols : List String) (row : Row) : String :=
  String.intercalate "," (cols.map (csvCell row))

/-- df.to_csv(index=False): header line of column names then one line per row. -/
def to_csv (rows : List Row) : String :=
  let cols := dfColumns rows
  String.intercalate "," cols ++ "\n" ++
    String.join (rows.map (fun r => csvLine cols r ++ "\n"))

/-- Observable side effects of request processing: the extension check, the
temp-file write, the document conversion, and the two kinds of LLM call. -/
inductive Event where
  | extCheck (filename : String)
  | writeTmp (filename : String)
  | convert (filename : String)
  | llmCall
  | scoreCall (criteria : Json)

/-- An HTTP response of either endpoint. -/
inductive Response where
  | criteriaJson (criteria : List String)
  | csv (text : String)
  | err400 (msg : String)
deriving DecidableEq

/-- OpenAIClient.score_multiple_resumes_against_criteria from src/app/utils.py:
score each resume in order with the single-resume scorer (parameter scoreOne,
the external LLM call); an exception from any single call propagates. -/
def score_multiple_resumes_against_criteria
    (scoreOne : Json → List String → Except String ScoreResponse)
    (criteria : Json) : List (List String) → Except String (List ScoreResponse)
  | [] => Except.ok []
  | r :: rest =>
    match scoreOne criteria r with
    | Except.error e => Except.error e
    | Except.ok s =>
      match score_multiple_resumes_against_criteria scoreOne criteria rest with
      | Except.error e => Except.error e
      | Except.ok ss => Except.ok (s :: ss)

/-- The per-file loop of score_resumes_endpoint (main.py lines 111-127): for
each file check the extension, write the temp file, rasterize (parameter conv
covering extractor construction and convert_to_base64), collect the page
images and the filename-stem candidate name; any exception is wrapped in an
"Error processing file" message and stops the loop. -/
def processFiles (conv : Extractor → UploadFile → Except String (List String)) :
    List UploadFile → Except String (List (List String) × List String) × List Event
  | [] => (Except.ok ([], []), [])
  | f :: rest =>
    match get_extractor f.filename with
    | Except.error e =>
        (Except.error ("Error processing file " ++ f.filename ++ ": " ++ e),
         [Event.extCheck f.filename])
    | Except.ok ex =>
        match conv ex f with
        | Except.error e =>
            (Except.error ("Error processing file " ++ f.filename ++ ": " ++ e),
             [Event.extCheck f.filename, Event.writeTmp f.filename, Event.convert f.filename])
        | Except.ok b64s =>
            match processFiles conv rest with
            | (Except.error e, evs) =>
                (Except.error e,
                 Event.extCheck f.filename :: Event.writeTmp f.filename ::
                   Event.convert f.filename :: evs)
            | (Except.ok (bs, ns), evs) =>
                (Except.ok (b64s :: bs, (splitext f.filename).1 :: ns),
                 Event.extCheck f.filename :: Event.writeTmp f.filename ::
                   Event.convert f.filename :: evs)

/-- The 400 message of the criteria-validation step of main.py lines 104-109. -/
def invalidCriteriaMsg : String := "Invalid criteria format. Must be a JSON list of strings."

/-- score_resumes_endpoint from src/app/main.py: json.loads the criteria field
(parameter jsonLoads; failure yields the validation 400 before any file is
touched), process the files, score every resume, then serialize the pandas
DataFrame as a CSV response. -/
def score_resumes_endpoint
    (jsonLoads : String → Option Json)
    (conv : Extractor → UploadFile → Except String (List String))
    (scoreOne : Json → List String → Except String ScoreResponse)
    (criteria : String) (files : List UploadFile) : Response × List Event :=
  match jsonLoads criteria with
  | none => (Response.err400 invalidCriteriaMsg, [])
  | some criteria_list =>
    match processFiles conv files with
    | (Except.error e, evs) => (Response.err400 e, evs)
    | (Except.ok (resumes_base64, candidate_names), evs) =>
      match score_multiple_resumes_against_criteria scoreOne criteria_list resumes_base64 with
      | Except.error e =>
          (Response.err400 ("Error scoring resumes: " ++ e),
           evs ++ [Event.scoreCall criteria_list])
      | Except.ok srs =>
          (Response.csv (to_csv (buildResults srs candidate_names)),
           evs ++ [Event.scoreCall criteria_list])

/-- extract_criteria_endpoint from src/app/main.py: extension check, temp-file
write, rasterization, then the criteria-extraction LLM call (parameter
extract); any exception becomes a 400 response. -/
def extract_criteria_endpoint
    (conv : Extractor → UploadFile → Except String (List String))
    (extract : List String → Except String (List String))
    (file : UploadFile) : Response × List Event :=
  match get_extractor file.filename with
  | Except.error e => (Response.err400 e, [Event.extCheck file.filename])
  | Except.ok ex =>
    match conv ex file with
    | Except.error e =>
        (Response.err400 e,
         [Event.extCheck file.filename, Event.writeTmp file.filename,
          Event.convert file.filename])
    | Except.ok b64s =>
      match extract b64s with
      | Except.error e =>
          (Response.err400 e,
           [Event.extCheck file.filename, Event.writeTmp file.filename,
            Event.convert file.filename, Event.llmCall])
      | Except.ok cs =>
          (Response.criteriaJson cs,
           [Event.extCheck file.filename, Event.writeTmp file.filename,
            Event.convert file.filename, Event.llmCall])

/- Concrete collaborator stubs used to evaluate the endpoints on closed inputs. -/

/-- Parser stub: every string parses to the JSON list ["A", "B"]. -/
def parseStubAB : String → Option Json := fun _ => some (Json.arr [Json.str "A", Json.str "B"])

/-- Parser stub: every string fails to parse. -/
def parseStubNone : String → Option Json := fun _ => none

/-- Rasterizer stub: every file converts to one page image. -/
def convStubOk : Extractor → UploadFile → Except String (List String) :=
  fun _ _ => Except.ok ["img"]

/-- Criteria-extraction stub returning one criterion. -/
def extractStubOk : List String → Except String (List String) :=
  fun _ => Except.ok ["crit"]

/-- A response whose scores dict lists key "B" before key "A". -/
def srStubBA : ScoreResponse := ScoreResponse.mk "X" [("B", 1), ("A", 2)] 3

/-- A response whose LLM-supplied total (99) differs from the sum of its scores (2). -/
def srStub99 : ScoreResponse := ScoreResponse.mk "X" [("A", 2)] 99

/-- A response carrying an out-of-range per-criterion score of 7. -/
def srStub7 : ScoreResponse := ScoreResponse.mk "X" [("A", 7)] 7

/-- A response with an empty candidate name and a criterion literally named
"Candidate Name". -/
def srStubClash : ScoreResponse := ScoreResponse.mk "" [("Candidate Name", 3)] 3

/-- A response with an empty candidate name and an ordinary criterion. -/
def srStubEmptyName : ScoreResponse := ScoreResponse.mk "" [("A", 2)] 2

/-- A response scoring only criterion "B". -/
def srStubB : ScoreResponse := ScoreResponse.mk "X" [("B", 1)] 1

/-- Scorer stub returning srStubBA for every resume. -/
def scoreStubBA : Json → List String → Except String ScoreResponse :=
  fun _ _ => Except.ok srStubBA

/-- Scorer stub returning srStub99 for every resume. -/
def scoreStub99 : Json → List String → Except String ScoreResponse :=
  fun _ _ => Except.ok srStub99

/-- Scorer stub returning srStub7 for every resume. -/
def scoreStub7 : Json → List String → Except String ScoreResponse :=
  fun _ _ => Except.ok srStub7

/-- Scorer stub that fails on every resume. -/
def scoreStubErr : Json → List String → Except String ScoreResponse :=
  fun _ _ => Except.error "boom"

/-- An uploaded PDF named x.pdf. -/
def fileXPdf : UploadFile := UploadFile.mk "x.pdf" []

/-- An uploaded file with the unsupported extension .txt. -/
def fileATxt : UploadFile := UploadFile.mk "a.txt" []

/-- JPEG-save stub: the identity on image bytes. -/
def saveStub : Image → List Nat := fun im => im.bytes

/-- Base64 stub: concatenate decimal renderings of the bytes. -/
def encStub : List Nat → String := fun bs => String.join (bs.map (fun b => toString b))

/-- A two-page PDF document. -/
def pdfDocStub : PdfDocument := PdfDocument.mk [Image.mk [1], Image.mk [2]]

/-- A DOCX document. -/
def docxDocStub : DocxDocument := DocxDocument.mk [0]

/-- LibreOffice stub converting every DOCX to pdfDocStub. -/
def libreStub : DocxDocument → Except String PdfDocument := fun _ => Except.ok pdfDocStub

/- Association-list (Python dict) lemmas. -/

/-- Key membership coincides with the Boolean scan used by dictInsert. -/
theorem mem_keys_iff_any (d : Row) (k : String) :
    k ∈ d.map Prod.fst ↔ d.any (fun kv => kv.1 == k) = true := by
  simp [List.any_eq_true, List.mem_map]

/-- Looking up an absent key yields none. -/
theorem dictLookup_eq_none_of_not_mem (d : Row) (k : String) (h : k ∉ d.map Prod.fst) :
    dictLookup k d = none := by
  induction d with
  | nil => rfl
  | cons kv t ih =>
    rw [List.map_cons, List.mem_cons, not_or] at h
    rw [dictLookup, if_neg (fun hh => h.1 hh.symm)]
    exact ih h.2

/-- A successful lookup survives appending on the right. -/
theorem dictLookup_append_left (d₁ d₂ : Row) (k : String) (c : Cell)
    (h : dictLookup k d₁ = some c) : dictLookup k (d₁ ++ d₂) = some c := by
  induction d₁ with
  | nil => simp [dictLookup] at h
  | cons kv t ih =>
    rw [dictLookup] at h
    by_cases hk : kv.1 = k
    · rw [if_pos hk] at h; rw [List.cons_append, dictLookup, if_pos hk]; exact h
    · rw [if_neg hk] at h; rw [List.cons_append, dictLookup, if_neg hk]; exact ih h

/-- A failed lookup defers to the appended tail. -/
theorem dictLookup_append_right (d₁ d₂ : Row) (k : String)
    (h : dictLookup k d₁ = none) : dictLookup k (d₁ ++ d₂) = dictLookup k d₂ := by
  induction d₁ with
  | nil => rfl
  | cons kv t ih =>
    rw [dictLookup] at h
    by_cases hk : kv.1 = k
    · rw [if_pos hk] at h; simp at h
    · rw [if_neg hk] at h; rw [List.cons_append, dictLookup, if_neg hk]; exact ih h

/-- In-place replacement of a present key makes its lookup return the new value. -/
theorem dictLookup_mapReplace_self (d : Row) (k : String) (v : Cell)
    (h : k ∈ d.map Prod.fst) :
    dictLookup k (d.map (fun kv => if kv.1 = k then (k, v) else kv)) = some v := by
  induction d with
  | nil => simp at h
  | cons kv t ih =>
    by_cases hk : kv.1 = k
    · simp [List.map_cons, if_pos hk, dictLookup]
    · rw [List.map_cons, if_neg hk, dictLookup, if_neg hk]
      apply ih
      rw [List.map_cons, List.mem_cons] at h
      exact h.resolve_left (fun hh => hk hh.symm)

/-- In-place replacement of one key leaves lookups of other keys unchanged. -/
theorem dictLookup_mapReplace_ne (d : Row) (k k' : String) (v : Cell) (hne : k ≠ k') :
    dictLookup k (d.map (fun kv => if kv.1 = k' then (k', v) else kv)) = dictLookup k d := by
  induction d with
  | nil => rfl
  | cons kv t ih =>
    by_cases hk : kv.1 = k'
    · have hkk : ¬ kv.1 = k := fun hh => hne ((hh.symm.trans hk))
      rw [List.map_cons, if_pos hk, dictLookup, if_neg (fun hh => hne hh.symm),
          dictLookup, if_neg hkk]
      exact ih
    · rw [List.map_cons, if_neg hk]
      by_cases hkk : kv.1 = k
      · rw [dictLookup, if_pos hkk, dictLookup, if_pos hkk]
      · rw [dictLookup, if_neg hkk, dictLookup, if_neg hkk]; exact ih

/-- Inserting an absent key appends it. -/
theorem dictInsert_of_not_mem (d : Row) (k : String) (v : Cell)
    (h : k ∉ d.map Prod.fst) : dictInsert d k v = d ++ [(k, v)] := by
  rw [dictInsert, if_neg]
  intro hany
  exact h ((mem_keys_iff_any d k).2 hany)

/-- Looking up the freshly written key of a dict write returns its value. -/
theorem dictLookup_dictInsert_self (d : Row) (k : String) (v : Cell) :
    dictLookup k (dictInsert d k v) = some v := by
  by_cases h : d.any (fun kv => kv.1 == k) = true
  · rw [dictInsert, if_pos h]
    exact dictLookup_mapReplace_self d k v ((mem_keys_iff_any d k).2 h)
  · rw [dictInsert, if_neg h]
    rw [dictLookup_append_right _ _ _
      (dictLookup_eq_none_of_not_mem d k (fun hm => h ((mem_keys_iff_any d k).1 hm)))]
    simp [dictLookup]

/-- A dict write to one key leaves lookups of other keys unchanged. -/
theorem dictLookup_dictInsert_ne (d : Row) (k k' : String) (v : Cell) (hne : k ≠ k') :
    dictLookup k (dictInsert d k' v) = dictLookup k d := by
  by_cases h : d.any (fun kv => kv.1 == k') = true
  · rw [dictInsert, if_pos h]
    exact dictLookup_mapReplace_ne d k k' v hne
  · rw [dictInsert, if_neg h]
    cases hd : dictLookup k d with
    | some c => rw [dictLookup_append_left _ _ _ _ hd]
    | none =>
      rw [dictLookup_append_right _ _ _ hd, dictLookup, if_neg (fun hh => hne hh.symm)]
      rfl

/-- Unfolding lemma for the score-merge loop. -/
theorem insertScores_cons (d : Row) (p : String × Int) (t : List (String × Int)) :
    insertScores d (p :: t) = insertScores (dictInsert d p.1 (Cell.int p.2)) t := rfl

/-- Merging scores whose keys avoid k leaves lookups of k unchanged. -/
theorem dictLookup_insertScores_of_not_mem (ps : List (String × Int)) (d : Row) (k : String)
    (h : k ∉ ps.map Prod.fst) :
    dictLookup k (insertScores d ps) = dictLookup k d := by
  induction ps generalizing d with
  | nil => rfl
  | cons p t ih =>
    rw [List.map_cons, List.mem_cons, not_or] at h
    rw [insertScores_cons, ih _ h.2, dictLookup_dictInsert_ne _ _ _ _ h.1]

/-- Merging a duplicate-free scores list makes each of its pairs retrievable. -/
theorem dictLookup_insertScores_of_mem (ps : List (String × Int)) (d : Row) (k : String) (v : Int)
    (hnd : (ps.map Prod.fst).Nodup) (hmem : (k, v) ∈ ps) :
    dictLookup k (insertScores d ps) = some (Cell.int v) := by
  induction ps generalizing d with
  | nil => simp at hmem
  | cons p t ih =>
    rw [List.map_cons, List.nodup_cons] at hnd
    rcases List.mem_cons.1 hmem with heq | hmem'
    · subst heq
      rw [insertScores_cons, dictLookup_insertScores_of_not_mem _ _ _ hnd.1]
      exact dictLookup_dictInsert_self _ _ _
    · rw [insertScores_cons]
      exact ih _ hnd.2 hmem'

/-- Merging fresh, duplicate-free score keys appends them in order. -/
theorem insertScores_keys (ps : List (String × Int)) (d : Row)
    (hnd : (ps.map Prod.fst).Nodup)
    (hdisj : ∀ x ∈ ps.map Prod.fst, x ∉ d.map Prod.fst) :
    (insertScores d ps).map Prod.fst = d.map Prod.fst ++ ps.map Prod.fst := by
  induction ps generalizing d with
  | nil => simp [insertScores]
  | cons p t ih =>
    rw [List.map_cons, List.nodup_cons] at hnd
    have hp : p.1 ∉ d.map Prod.fst := hdisj p.1 (by simp)
    have hkeys : (dictInsert d p.1 (Cell.int p.2)).map Prod.fst = d.map Prod.fst ++ [p.1] := by
      rw [dictInsert_of_not_mem _ _ _ hp]; simp
    have hdisj2 : ∀ x ∈ t.map Prod.fst, x ∉ (dictInsert d p.1 (Cell.int p.2)).map Prod.fst := by
      intro x hx
      rw [hkeys, List.mem_append, List.mem_singleton]
      rintro (hxd | hxp)
      · exact hdisj x (by simp [hx]) hxd
      · exact hnd.1 (hxp ▸ hx)
    rw [insertScores_cons, ih _ hnd.2 hdisj2, hkeys, List.append_assoc, List.singleton_append,
        List.map_cons]

/-- Key sequence of one built row when score keys are fresh and duplicate-free. -/
theorem buildRow_keys (sr : ScoreResponse) (fb : String)
    (hnd : (sr.scores.map Prod.fst).Nodup)
    (hCN : "Candidate Name" ∉ sr.scores.map Prod.fst)
    (hTS : "Total Score" ∉ sr.scores.map Prod.fst) :
    (buildRow sr fb).map Prod.fst
      = "Candidate Name" :: sr.scores.map Prod.fst ++ ["Total Score"] := by
  rw [buildRow]
  have h1 : (insertScores [("Candidate Name", Cell.str (pyOr sr.candidate_name fb))]
        sr.scores).map Prod.fst
      = ["Candidate Name"] ++ sr.scores.map Prod.fst := by
    apply insertScores_keys _ _ hnd
    intro x hx
    simp only [List.map_cons, List.map_nil, List.mem_singleton]
    exact fun hh => hCN (hh ▸ hx)
  rw [dictInsert_of_not_mem]
  · rw [List.map_append, h1]
    simp
  · rw [h1]
    simp only [List.singleton_append, List.mem_cons]
    rintro (hh | hh)
    · exact absurd hh (by decide)
    · exact hTS hh

/- pandas column-index lemmas. -/

/-- Unfolding lemma for one-row column accumulation. -/
theorem addCols_cons (cols : List String) (p : String × Cell) (t : Row) :
    addCols cols (p :: t) = addCols (if p.1 ∈ cols then cols else cols ++ [p.1]) t := rfl

/-- A row whose keys are already columns adds nothing. -/
theorem addCols_of_subset (cols : List String) (row : Row)
    (h : ∀ x ∈ row.map Prod.fst, x ∈ cols) : addCols cols row = cols := by
  induction row generalizing cols with
  | nil => rfl
  | cons p t ih =>
    rw [addCols_cons, if_pos (h p.1 (by simp))]
    exact ih cols (fun x hx => h x (by simp [hx]))

/-- A row with fresh, duplicate-free keys appends them in order. -/
theorem addCols_of_disjoint (cols : List String) (row : Row)
    (hnd : (row.map Prod.fst).Nodup)
    (h : ∀ x ∈ row.map Prod.fst, x ∉ cols) :
    addCols cols row = cols ++ row.map Prod.fst := by
  induction row generalizing cols with
  | nil => simp [addCols]
  | cons p t ih =>
    rw [List.map_cons, List.nodup_cons] at hnd
    rw [addCols_cons, if_neg (h p.1 (by simp))]
    have hdisj : ∀ x ∈ t.map Prod.fst, x ∉ cols ++ [p.1] := by
      intro x hx
      rw [List.mem_append, List.mem_singleton]
      rintro (hc | hp)
      · exact h x (by simp [hx]) hc
      · exact hnd.1 (hp ▸ hx)
    rw [ih _ hnd.2 hdisj, List.append_assoc, List.singleton_append, List.map_cons]

/-- Accumulating rows whose keys are all already columns changes nothing. -/
theorem foldl_addCols_const (L : List String) (rows : List Row)
    (h : ∀ row ∈ rows, row.map Prod.fst = L) : rows.foldl addCols L = L := by
  induction rows with
  | nil => rfl
  | cons r t ih =>
    have hr : addCols L r = L :=
      addCols_of_subset L r (fun x hx => by rw [h r (by simp)] at hx; exact hx)
    rw [List.foldl_cons, hr]
    exact ih (fun row hm => h row (by simp [hm]))

/-- The DataFrame column index of rows sharing one duplicate-free key sequence
is that key sequence. -/
theorem dfColumns_of_const_keys (L : List String) (rows : List Row)
    (hne : rows ≠ [])
    (h : ∀ row ∈ rows, row.map Prod.fst = L)
    (hnd : L.Nodup) : dfColumns rows = L := by
  cases rows with
  | nil => exact absurd rfl hne
  | cons r t =>
    have h0 : addCols [] r = L := by
      rw [addCols_of_disjoint [] r (by rw [h r (by simp)]; exact hnd) (by intro x hx; simp),
          List.nil_append, h r (by simp)]
    rw [dfColumns, List.foldl_cons, h0]
    exact foldl_addCols_const L t (fun row hm => h row (by simp [hm]))

/- Batch-scoring lemmas. -/

/-- If any single resume's scoring call fails, the whole batch call fails. -/
theorem score_multiple_error_of_mem
    (scoreOne : Json → List String → Except String ScoreResponse)
    (c : Json) (rs : List (List String)) (r : List String) (e : String)
    (hr : r ∈ rs) (he : scoreOne c r = Except.error e) :
    ∃ msg, score_multiple_resumes_against_criteria scoreOne c rs = Except.error msg := by
  induction rs with
  | nil => simp at hr
  | cons b t ih =>
    rcases List.mem_cons.1 hr with rfl | hr'
    · exact ⟨e, by simp [score_multiple_resumes_against_criteria, he]⟩
    · cases hb : scoreOne c b with
      | error e' => exact ⟨e', by simp [score_multiple_resumes_against_criteria, hb]⟩
      | ok s =>
        obtain ⟨m, hm⟩ := ih hr'
        exact ⟨m, by simp [score_multiple_resumes_against_criteria, hb, hm]⟩

/-- Successful file processing produces the filename stems, in order, as the
fallback candidate names. -/
theorem processFiles_ok_names (conv : Extractor → UploadFile → Except String (List String))
    (files : List UploadFile) (bs : List (List String)) (ns : List String) (evs : List Event)
    (h : processFiles conv files = (Except.ok (bs, ns), evs)) :
    ns = files.map (fun f => (splitext f.filename).1) := by
  induction files generalizing bs ns evs with
  | nil =>
    simp only [processFiles, Prod.mk.injEq, Except.ok.injEq] at h
    rw [List.map_nil, ← h.1.2]
  | cons f t ih =>
    cases hge : get_extractor f.filename with
    | error e => simp [processFiles, hge] at h
    | ok ex =>
      cases hc : conv ex f with
      | error e => simp [processFiles, hge, hc] at h
      | ok b64s =>
        cases hrec : processFiles conv t with
        | mk res evs' =>
          cases res with
          | error e => simp [processFiles, hge, hc, hrec] at h
          | ok pr =>
            obtain ⟨bs', ns'⟩ := pr
            simp only [processFiles, hge, hc, hrec, Prod.mk.injEq, Except.ok.injEq] at h
            rw [List.map_cons, ← h.1.2, ih bs' ns' evs' hrec]

/-- A file-processing failure always leaves at least one recorded event. -/
theorem processFiles_error_events_ne_nil
    (conv : Extractor → UploadFile → Except String (List String))
    (files : List UploadFile) (e : String) (evs : List Event)
    (h : processFiles conv files = (Except.error e, evs)) : evs ≠ [] := by
  cases files with
  | nil => simp [processFiles] at h
  | cons f t =>
    cases hge : get_extractor f.filename with
    | error e' =>
      simp only [processFiles, hge, Prod.mk.injEq] at h
      rw [← h.2]
      simp
    | ok ex =>
      cases hc : conv ex f with
      | error e' =>
        simp only [processFiles, hge, hc, Prod.mk.injEq] at h
        rw [← h.2]
        simp
      | ok b64s =>
        cases hrec : processFiles conv t with
        | mk res evs' =>
          cases res with
          | error e' =>
            simp only [processFiles, hge, hc, hrec, Prod.mk.injEq] at h
            rw [← h.2]
            simp
          | ok pr =>
            simp [processFiles, hge, hc, hrec] at h

/- Claim theorems. -/

/-- C1, counterexample: two supplied criteria ["A", "B"] and one resume whose
scores dict lists "B" before "A" produce the CSV header
Candidate Name,B,A,Total Score — the column order follows the order of the
LLM-returned scores mapping, not the first-seen order of the supplied criteria
list, so the claimed header Candidate Name,A,B,Total Score is not produced. -/
theorem c1_counterexample :
    (score_resumes_endpoint parseStubAB convStubOk scoreStubBA "crit" [fileXPdf]).1
      = Response.csv "Candidate Name,B,A,Total Score\nX,1,2,3\n"
    ∧ (score_resumes_endpoint parseStubAB convStubOk scoreStubBA "crit" [fileXPdf]).1
      ≠ Response.csv "Candidate Name,A,B,Total Score\nX,2,1,3\n" := by
  exact ⟨by decide, by decide⟩

/-- C1, amended: the ScoreTable has "Candidate Name" leading and "Total Score"
trailing with the criterion columns between them in the supplied criteria
order, provided every ScoreResult's scores mapping lists exactly the supplied
criteria in the supplied order (the criteria being distinct and distinct from
the two fixed column names); in general the code orders columns by first-seen
order across the LLM-returned scores mappings. -/
theorem c1_amended_columns (criteria : List String) (srs : List ScoreResponse)
    (names : List String)
    (hne : srs ≠ [])
    (hnd : criteria.Nodup)
    (hCN : "Candidate Name" ∉ criteria)
    (hTS : "Total Score" ∉ criteria)
    (hkeys : ∀ sr ∈ srs, sr.scores.map Prod.fst = criteria)
    (hlen : names.length = srs.length) :
    dfColumns (buildResults srs names) = "Candidate Name" :: criteria ++ ["Total Score"] := by
  apply dfColumns_of_const_keys
  · cases srs with
    | nil => exact absurd rfl hne
    | cons s st =>
      cases names with
      | nil => simp at hlen
      | cons n nt => simp [buildResults]
  · intro row hrow
    rw [buildResults] at hrow
    obtain ⟨p, hp, rfl⟩ := List.mem_map.1 hrow
    obtain ⟨sr, name⟩ := p
    have hsr : sr ∈ srs := (List.of_mem_zip hp).1
    have hk := hkeys sr hsr
    rw [buildRow_keys sr name (by rw [hk]; exact hnd) (by rw [hk]; exact hCN)
      (by rw [hk]; exact hTS), hk]
  · simp only [List.nodup_cons, List.nodup_append, List.nodup_singleton, List.mem_append,
      List.mem_singleton, List.disjoint_singleton]
    refine ⟨⟨hCN, hnd⟩, ⟨by simp, List.nodup_nil⟩, ?_⟩
    rw [List.mem_cons, not_or]
    exact ⟨by decide, hTS⟩

/-- C1 witness: with criteria ["A", "B"] and one resume whose scores mapping
lists exactly those criteria in that order, the columns are
[Candidate Name, A, B, Total Score]. -/
theorem c1_amended_columns_witness :
    dfColumns (buildResults [ScoreResponse.mk "X" [("A", 2), ("B", 1)] 3] ["x"])
      = "Candidate Name" :: ["A", "B"] ++ ["Total Score"] :=
  c1_amended_columns ["A", "B"] [ScoreResponse.mk "X" [("A", 2), ("B", 1)] 3] ["x"]
    (by decide) (by decide) (by decide) (by decide) (by decide) (by decide)

/-- C2, counterexample: a ScoreResponse whose LLM-supplied total (99) differs
from the sum of its scores (2) is emitted into the table with Total Score 99 —
the implementation neither verifies nor recomputes the total. -/
theorem c2_counterexample :
    dictLookup "Total Score" (buildRow srStub99 "x") = some (Cell.int 99)
    ∧ (srStub99.scores.map Prod.snd).sum = 2
    ∧ (99 : Int) ≠ 2
    ∧ (score_resumes_endpoint parseStubAB convStubOk scoreStub99 "crit" [fileXPdf]).1
      = Response.csv "Candidate Name,A,Total Score\nX,2,99\n" := by
  exact ⟨by decide, by decide, by decide, by decide⟩

/-- C2, amended: every emitted row's Total Score cell is exactly the
LLM-supplied total_score, used unchanged with no server-side verification or
recomputation; the invariant totalScore = sum(scores.values()) holds only if
the LLM supplies it. -/
theorem c2_amended_total_passthrough (sr : ScoreResponse) (fb : String) :
    dictLookup "Total Score" (buildRow sr fb) = some (Cell.int sr.total_score) := by
  rw [buildRow]
  exact dictLookup_dictInsert_self _ _ _

/-- C3, counterexample: a model response with the out-of-range score 7 is
accepted unchanged: the batch endpoint returns a CSV containing the cell 7
rather than rejecting the response, and the cell is not clamped into [0, 5]. -/
theorem c3_counterexample :
    (score_resumes_endpoint parseStubAB convStubOk scoreStub7 "crit" [fileXPdf]).1
      = Response.csv "Candidate Name,A,Total Score\nX,7,7\n"
    ∧ dictLookup "A" (buildRow srStub7 "x") = some (Cell.int 7)
    ∧ ¬ ((0 : Int) ≤ 7 ∧ (7 : Int) ≤ 5) := by
  exact ⟨by decide, by decide, by decide⟩

/-- C3, amended: per-criterion scores are only constrained to be integers; any
integer value in the scores mapping, in range or not, is passed through to the
corresponding table cell unchanged — no [0, 5] validation or clamping exists. -/
theorem c3_amended_scores_passthrough (sr : ScoreResponse) (fb : String) (k : String) (v : Int)
    (hnd : (sr.scores.map Prod.fst).Nodup) (hmem : (k, v) ∈ sr.scores)
    (hTS : k ≠ "Total Score") :
    dictLookup k (buildRow sr fb) = some (Cell.int v) := by
  rw [buildRow, dictLookup_dictInsert_ne _ _ _ _ hTS]
  exact dictLookup_insertScores_of_mem _ _ _ _ hnd hmem

/-- C3 witness: the out-of-range score 7 for criterion "A" reaches the row. -/
theorem c3_amended_scores_passthrough_witness :
    dictLookup "A" (buildRow srStub7 "w") = some (Cell.int 7) :=
  c3_amended_scores_passthrough srStub7 "w" "A" 7 (by decide) (by decide) (by decide)

/-- C4: if the criteria parse and all files rasterize but scoring any single
resume of the batch fails, the whole request yields a 400 error response and
no CSV table is produced. -/
theorem c4_fail_fast
    (jsonLoads : String → Option Json)
    (conv : Extractor → UploadFile → Except String (List String))
    (scoreOne : Json → List String → Except String ScoreResponse)
    (criteria : String) (files : List UploadFile)
    (c : Json) (bs : List (List String)) (ns : List String) (evs : List Event)
    (r : List String) (e : String)
    (hparse : jsonLoads criteria = some c)
    (hproc : processFiles conv files = (Except.ok (bs, ns), evs))
    (hr : r ∈ bs)
    (he : scoreOne c r = Except.error e) :
    ∃ msg,
      (score_resumes_endpoint jsonLoads conv scoreOne criteria files).1 = Response.err400 msg
      ∧ ∀ s, (score_resumes_endpoint jsonLoads conv scoreOne criteria files).1
          ≠ Response.csv s := by
  obtain ⟨m, hm⟩ := score_multiple_error_of_mem scoreOne c bs r e hr he
  refine ⟨"Error scoring resumes: " ++ m, ?_, ?_⟩
  · simp [score_resumes_endpoint, hparse, hproc, hm]
  · intro s
    simp [score_resumes_endpoint, hparse, hproc, hm]

/-- C4 witness: a single failing resume fails a concrete one-file batch. -/
theorem c4_fail_fast_witness :
    ∃ msg,
      (score_resumes_endpoint parseStubAB convStubOk scoreStubErr "crit" [fileXPdf]).1
        = Response.err400 msg
      ∧ ∀ s, (score_resumes_endpoint parseStubAB convStubOk scoreStubErr "crit" [fileXPdf]).1
          ≠ Response.csv s :=
  c4_fail_fast parseStubAB convStubOk scoreStubErr "crit" [fileXPdf]
    (Json.arr [Json.str "A", Json.str "B"]) [["img"]] ["x"]
    [Event.extCheck "x.pdf", Event.writeTmp "x.pdf", Event.convert "x.pdf"]
    ["img"] "boom" rfl rfl (by simp) rfl

/-- C5: a criterion column absent from a candidate's scores mapping (and
distinct from the two fixed columns) serializes as the empty cell, never as
the number zero. -/
theorem c5_missing_cell_empty (sr : ScoreResponse) (fb : String) (col : String)
    (h1 : col ∉ sr.scores.map Prod.fst)
    (h2 : col ≠ "Candidate Name") (h3 : col ≠ "Total Score") :
    csvCell (buildRow sr fb) col = "" ∧ csvCell (buildRow sr fb) col ≠ "0" := by
  have hnone : dictLookup col (buildRow sr fb) = none := by
    rw [buildRow, dictLookup_dictInsert_ne _ _ _ _ h3,
        dictLookup_insertScores_of_not_mem _ _ _ h1]
    simp [dictLookup, Ne.symm h2]
  constructor
  · simp [csvCell, hnone]
  · simp [csvCell, hnone]

/-- C5 witness: a row scoring only "B" serializes an empty cell under "A". -/
theorem c5_missing_cell_empty_witness :
    csvCell (buildRow srStubB "x") "A" = "" ∧ csvCell (buildRow srStubB "x") "A" ≠ "0" :=
  c5_missing_cell_empty srStubB "x" "A" (by decide) (by decide) (by decide)

/-- C6, counterexample: with an empty candidateName and a criterion literally
named "Candidate Name", the merge loop overwrites the name cell with the score
3, so the row's Candidate Name value is not the filename-stem fallback "bob". -/
theorem c6_counterexample :
    dictLookup "Candidate Name" (buildRow srStubClash "bob") = some (Cell.int 3)
    ∧ some (Cell.int 3) ≠ some (Cell.str "bob") := by
  exact ⟨by decide, by decide⟩

/-- C6, amended: provided no key of the scores mapping is literally
"Candidate Name", an empty returned candidateName falls back to the supplied
identity and a non-empty one is used unchanged; the fallback identities
produced by file processing are exactly the uploaded filenames' stems
(extension removed), in order. -/
theorem c6_amended_name_fallback :
    (∀ (sr : ScoreResponse) (fb : String),
        "Candidate Name" ∉ sr.scores.map Prod.fst →
        dictLookup "Candidate Name" (buildRow sr fb)
          = some (Cell.str (if sr.candidate_name = "" then fb else sr.candidate_name)))
    ∧ (∀ (conv : Extractor → UploadFile → Except String (List String))
        (files : List UploadFile) (bs : List (List String)) (ns : List String)
        (evs : List Event),
        processFiles conv files = (Except.ok (bs, ns), evs) →
        ns = files.map (fun f => (splitext f.filename).1)) := by
  constructor
  · intro sr fb h
    rw [buildRow, dictLookup_dictInsert_ne _ _ _ _ (by decide),
        dictLookup_insertScores_of_not_mem _ _ _ h]
    simp [dictLookup, pyOr]
  · intro conv files bs ns evs h
    exact processFiles_ok_names conv files bs ns evs h

/-- C6 witness: an empty candidateName falls back to the identity "bob". -/
theorem c6_amended_name_fallback_witness :
    dictLookup "Candidate Name" (buildRow srStubEmptyName "bob")
      = some (Cell.str
          (if srStubEmptyName.candidate_name = "" then "bob"
           else srStubEmptyName.candidate_name)) :=
  c6_amended_name_fallback.1 srStubEmptyName "bob" (by decide)

/-- C7: a file whose (lowercased) extension is outside {.pdf, .docx} makes the
extraction endpoint fail with the unsupported-file-type 400 immediately after
the extension check: the event trace holds only the check itself — no
temp-file write, no conversion and no LLM call occur. -/
theorem c7_unsupported_before_conversion
    (conv : Extractor → UploadFile → Except String (List String))
    (extract : List String → Except String (List String))
    (file : UploadFile)
    (h1 : (splitext (pyLower file.filename)).2 ≠ ".pdf")
    (h2 : (splitext (pyLower file.filename)).2 ≠ ".docx") :
    extract_criteria_endpoint conv extract file
      = (Response.err400 ("Unsupported file type: " ++ (splitext (pyLower file.filename)).2),
         [Event.extCheck file.filename]) := by
  have e1 : ((".pdf" : String) == (splitext (pyLower file.filename)).2) = false := by
    rw [beq_eq_false_iff_ne]
    exact fun hh => h1 hh.symm
  have e2 : ((".docx" : String) == (splitext (pyLower file.filename)).2) = false := by
    rw [beq_eq_false_iff_ne]
    exact fun hh => h2 hh.symm
  have hlk : lookupExtractor (splitext (pyLower file.filename)).2 = none := by
    simp [lookupExtractor, FILE_TYPE_TO_EXTRACTOR, List.find?, e1, e2]
  have hge : get_extractor file.filename
      = Except.error ("Unsupported file type: " ++ (splitext (pyLower file.filename)).2) := by
    simp [get_extractor, hlk]
  simp [extract_criteria_endpoint, hge]

/-- C7 witness: uploading a.txt yields the unsupported-type 400 with only the
extension check in the trace. -/
theorem c7_unsupported_before_conversion_witness :
    extract_criteria_endpoint convStubOk extractStubOk fileATxt
      = (Response.err400
           ("Unsupported file type: " ++ (splitext (pyLower fileATxt.filename)).2),
         [Event.extCheck fileATxt.filename]) :=
  c7_unsupported_before_conversion convStubOk extractStubOk fileATxt (by decide) (by decide)

/-- C8: both rasterizers emit exactly one encoded blob (base64 of the JPEG
re-encoding) per page image, preserving page order: the PDF reader's output
has the page-sequence length and its i-th blob encodes the i-th page, and the
DOCX reader's output is exactly the encoding map over its converted pages. -/
theorem c8_one_blob_per_page_in_order
    (save : Image → List Nat) (b64encode : List Nat → String) :
    (∀ d : PdfDocument,
        (PdfReader.convert_to_base64 save b64encode d).length
          = (PdfReader.convert_to_images d).length
        ∧ ∀ i : Nat,
            (PdfReader.convert_to_base64 save b64encode d)[i]?
              = ((PdfReader.convert_to_images d)[i]?).map (fun p => b64encode (save p)))
    ∧ (∀ (libre : DocxDocument → Except String PdfDocument) (d : DocxDocument)
        (imgs : List Image),
        DocxReader.convert_to_images libre d = Except.ok imgs →
        DocxReader.convert_to_base64 libre save b64encode d
          = Except.ok (imgs.map (fun p => b64encode (save p)))) := by
  constructor
  · intro d
    constructor
    · simp [PdfReader.convert_to_base64]
    · intro i
      simp [PdfReader.convert_to_base64, List.getElem?_map]
  · intro libre d imgs h
    simp [DocxReader.convert_to_base64, h]

/-- C8 witness: on a concrete two-page PDF and a DOCX converting to it, the
blob count matches the page count and the DOCX path encodes those pages. -/
theorem c8_one_blob_per_page_in_order_witness :
    (PdfReader.convert_to_base64 saveStub encStub pdfDocStub).length
        = (PdfReader.convert_to_images pdfDocStub).length
    ∧ DocxReader.convert_to_base64 libreStub saveStub encStub docxDocStub
        = Except.ok ((PdfReader.convert_to_images pdfDocStub).map
            (fun p => encStub (saveStub p))) :=
  ⟨((c8_one_blob_per_page_in_order saveStub encStub).1 pdfDocStub).1,
   (c8_one_blob_per_page_in_order saveStub encStub).2 libreStub docxDocStub
     (PdfReader.convert_to_images pdfDocStub) rfl⟩

/-- C9: extension detection lowercases the filename first, so filenames whose
extension differs from .pdf/.docx only in letter case (resume.PDF, cv.DocX)
are accepted and routed to the corresponding reader, and in general any
filename whose lowercased form has extension .pdf (resp. .docx) is routed to
the PDF (resp. DOCX) reader. -/
theorem c9_case_insensitive_extension :
    get_extractor "resume.PDF" = Except.ok Extractor.pdfReader
    ∧ get_extractor "cv.DocX" = Except.ok Extractor.docxReader
    ∧ (∀ f : String, (splitext (pyLower f)).2 = ".pdf" →
        get_extractor f = Except.ok Extractor.pdfReader)
    ∧ (∀ f : String, (splitext (pyLower f)).2 = ".docx" →
        get_extractor f = Except.ok Extractor.docxReader) := by
  refine ⟨by rfl, by rfl, ?_, ?_⟩
  · intro f h
    simp [get_extractor, h, lookupExtractor, FILE_TYPE_TO_EXTRACTOR, List.find?]
  · intro f h
    simp [get_extractor, h, lookupExtractor, FILE_TYPE_TO_EXTRACTOR, List.find?]

/-- C9 witness: b.PDF is routed to the PDF reader. -/
theorem c9_case_insensitive_extension_witness :
    get_extractor "b.PDF" = Except.ok Extractor.pdfReader :=
  c9_case_insensitive_extension.2.2.1 "b.PDF" (by decide)

/-- C10: the criteria form field is validated only for JSON parseability: a
parse failure yields exactly the "Invalid criteria format" 400 before any file
is processed; a parse success — whatever the shape of the parsed value — never
yields that validation 400, and the parsed value is forwarded as-is to the
scoring pipeline once the files process. -/
theorem c10_criteria_json_only_parse_check :
    (∀ (jsonLoads : String → Option Json)
        (conv : Extractor → UploadFile → Except String (List String))
        (scoreOne : Json → List String → Except String ScoreResponse)
        (criteria : String) (files : List UploadFile),
        jsonLoads criteria = none →
        score_resumes_endpoint jsonLoads conv scoreOne criteria files
          = (Response.err400 invalidCriteriaMsg, []))
    ∧ (∀ (jsonLoads : String → Option Json)
        (conv : Extractor → UploadFile → Except String (List String))
        (scoreOne : Json → List String → Except String ScoreResponse)
        (criteria : String) (files : List UploadFile)
        (v : Json) (bs : List (List String)) (ns : List String) (evs : List Event),
        jsonLoads criteria = some v →
        processFiles conv files = (Except.ok (bs, ns), evs) →
        Event.scoreCall v ∈ (score_resumes_endpoint jsonLoads conv scoreOne criteria files).2)
    ∧ (∀ (jsonLoads : String → Option Json)
        (conv : Extractor → UploadFile → Except String (List String))
        (scoreOne : Json → List String → Except String ScoreResponse)
        (criteria : String) (files : List UploadFile),
        score_resumes_endpoint jsonLoads conv scoreOne criteria files
          = (Response.err400 invalidCriteriaMsg, []) →
        jsonLoads criteria = none) := by
  refine ⟨?_, ?_, ?_⟩
  · intro p conv s criteria files h
    simp [score_resumes_endpoint, h]
  · intro p conv s criteria files v bs ns evs hp hproc
    cases hs : score_multiple_resumes_against_criteria s v bs with
    | error e => simp [score_resumes_endpoint, hp, hproc, hs]
    | ok srs => simp [score_resumes_endpoint, hp, hproc, hs]
  · intro p conv s criteria files h
    cases hp : p criteria with
    | none => rfl
    | some v =>
      exfalso
      cases hproc : processFiles conv files with
      | mk res evs =>
        cases res with
        | error e =>
          simp only [score_resumes_endpoint, hp, hproc, Prod.mk.injEq] at h
          exact processFiles_error_events_ne_nil conv files e evs hproc h.2
        | ok pr =>
          obtain ⟨bs, ns⟩ := pr
          cases hs : score_multiple_resumes_against_criteria s v bs with
          | error e =>
            simp only [score_resumes_endpoint, hp, hproc, hs, Prod.mk.injEq] at h
            simp at h
          | ok srs =>
            simp only [score_resumes_endpoint, hp, hproc, hs, Prod.mk.injEq] at h
            simp at h

/-- C10 witness: a parse failure on a concrete request yields exactly the
validation 400 with no file processed. -/
theorem c10_criteria_json_only_parse_check_witness :
    score_resumes_endpoint parseStubNone convStubOk scoreStubBA "nope" []
      = (Response.err400 invalidCriteriaMsg, []) :=
  c10_criteria_json_only_parse_check.1 parseStubNone convStubOk scoreStubBA "nope" [] rfl

end LLMExtractor
